import Mathlib

/-!
Shallow embedding of the skill orchestration engine of the character-chat
application (src/skills): the intent classifier, the skill matcher, the
context builder, the async executor and the manager facade.  Python dicts
are modelled as association lists with last-write-wins insertion, scores
as rationals, and the cooperative-concurrency semaphore protocol of the
executor as an explicit small-step transition system.
-/

/-- Association-list lookup, modelling Python `d.get(k)` / `d[k]`.
Returns the first binding; the insertion operation below keeps keys unique. -/
def alookup {κ β : Type} [DecidableEq κ] (k : κ) : List (κ × β) → Option β
  | [] => none
  | (k', v) :: rest => if k = k' then some v else alookup k rest

/-- Python `d[k] = v`: replace the binding in place if the key is present,
otherwise append it. -/
def dictInsert {κ β : Type} [DecidableEq κ] (k : κ) (v : β) : List (κ × β) → List (κ × β)
  | [] => [(k, v)]
  | (k', v') :: rest => if k' = k then (k, v) :: rest else (k', v') :: dictInsert k v rest

/-- Python `del d[k]`. -/
def dictErase {κ β : Type} [DecidableEq κ] (k : κ) (d : List (κ × β)) : List (κ × β) :=
  d.filter (fun p => ¬ p.1 = k)

/-- Python `dict(**a, **b, ...)` step: insert every binding of `es` into `d`,
later bindings overwriting earlier ones. -/
def insertAll {κ β : Type} [DecidableEq κ] (d es : List (κ × β)) : List (κ × β) :=
  es.foldl (fun acc p => dictInsert p.1 p.2 acc) d

/-- First-defined choice between two optional values. -/
def firstSome {β : Type} (a b : Option β) : Option β :=
  match a with
  | some v => some v
  | none => b

/-- Drop characters of `s` up to and including the first occurrence of `seg`;
`none` when `seg` does not occur.  Helper for the substring and regex models below. -/
def dropThrough (seg : List Char) : List Char → Option (List Char)
  | [] => if seg.isEmpty then some [] else none
  | c :: rest =>
    if seg.isPrefixOf (c :: rest) then some ((c :: rest).drop seg.length)
    else dropThrough seg rest

/-- Python `kw in s` on strings: substring containment. -/
def pyContains (s kw : String) : Bool :=
  (dropThrough kw.data s.data).isSome

/-- `re.search` for the patterns used by the classifier: every pattern in the
source has the shape `.*a.*`, `.*a.*b.*`, ... and is represented by its list
of literal segments, which must occur in order. -/
def matchSegs : List (List Char) → List Char → Bool
  | [], _ => true
  | seg :: rest, s =>
    match dropThrough seg s with
    | some s' => matchSegs rest s'
    | none => false

/-- A classifier regex pattern, given by its literal segments. -/
def matchesPattern (pat : List String) (s : String) : Bool :=
  matchSegs (pat.map String.data) s.data

/-- Python `str.split()` + truthiness filter: split on whitespace, drop empties. -/
def pySplitWhitespace (s : String) : List String :=
  (s.split (fun c => c.isWhitespace)).filter (fun w => ¬ w = "")

/-- Stable descending insertion by a rational key (Python `sorted(key=..., reverse=True)`). -/
def insertDescBy {α : Type} (key : α → ℚ) (a : α) : List α → List α
  | [] => [a]
  | b :: rest => if key a > key b then a :: b :: rest else b :: insertDescBy key a rest

/-- Stable descending sort by a rational key. -/
def sortDescBy {α : Type} (key : α → ℚ) : List α → List α
  | [] => []
  | a :: rest => insertDescBy key a (sortDescBy key rest)

/-- Python `max(items, key=lambda x: x[1])` over an association list:
the first entry with maximal value wins ties. -/
def argmaxFirst : List (String × ℚ) → Option (String × ℚ)
  | [] => none
  | p :: rest =>
    match argmaxFirst rest with
    | none => some p
    | some q => if q.2 > p.2 then some q else some p

/-! ## Data model (src/skills/core/models.py) -/

/-- `SkillCategory` enum. -/
inductive SkillCategory
  | conversation
  | knowledge
  | creative
  | utility
deriving DecidableEq, Repr

/-- `SkillExecutionStatus` enum. -/
inductive SkillExecutionStatus
  | pending
  | running
  | completed
  | failed
  | timeout
  | cancelled
deriving DecidableEq, Repr

/-- `SkillMetadata` (the fields the orchestration logic reads). -/
structure SkillMetadata where
  name : String
  category : SkillCategory
  character_compatibility : List String
  max_execution_time : ℚ
  concurrent_limit : Nat
  cache_results : Bool
  enabled : Bool
deriving DecidableEq, Repr

/-- `SkillConfig` (per-character tunables used by matcher, manager, executor).
`parameters` values are modelled as strings. -/
structure SkillConfig where
  skill_name : String
  character_id : Option Int
  parameters : List (String × String)
  weight : ℚ
  threshold : ℚ
  enabled : Bool
  cooldown_seconds : ℚ
deriving DecidableEq, Repr

/-- Default `SkillConfig` as produced by pydantic defaults
(`weight=1.0`, `threshold=0.5`, `cooldown_seconds=0`). -/
def defaultSkillConfig (name : String) (character_id : Option Int) : SkillConfig :=
  ⟨name, character_id, [], 1, 1/2, true, 0⟩

/-- `SkillContext` (the fields the classifier, matcher and manager read).
`character` is modelled by its `name` entry, the only key the engine reads;
`skill_history` entries by their `skill_name` value; `context_data` and
`session_data` values as strings. -/
structure SkillContext where
  user_input : String
  character_name : Option String
  character_id : Option Int
  conversation_id : Option Int
  message_id : Option Int
  conversation_history : List (String × String)
  skill_history : List String
  context_data : List (String × String)
  session_data : List (String × String)
  detected_intent : Option String
  intent_confidence : ℚ
  emotional_state : Option String
  request_id : Nat
deriving DecidableEq, Repr

/-- `SkillResult` (the fields the engine produces and post-processes). -/
structure SkillResult where
  skill_name : String
  execution_id : Nat
  status : SkillExecutionStatus
  generated_content : Option String
  execution_time : ℚ
  error_message : Option String
  error_code : Option String
  confidence_score : ℚ
  relevance_score : ℚ
  quality_score : ℚ
deriving DecidableEq, Repr

/-- `SkillExecution`, the executor's bookkeeping record. -/
structure SkillExecution where
  id : Nat
  skill_name : String
  status : SkillExecutionStatus
  progress : ℚ
  result : Option SkillResult
deriving DecidableEq, Repr

/-- `IntentClassification` (fields consumed by the matcher).  Entity
extraction and context factors are not read by any orchestration decision
and are omitted. -/
structure IntentClassification where
  input_text : String
  detected_intent : String
  confidence : ℚ
  alternative_intents : List (String × ℚ)
deriving DecidableEq, Repr

/-- Pydantic validation of `IntentClassification`: the model declares
`confidence: Field(ge=0.0, le=1.0)`, so construction raises a
`ValidationError` when the computed confidence leaves `[0, 1]`. -/
def mkIntentClassification (input_text detected_intent : String) (confidence : ℚ)
    (alternative_intents : List (String × ℚ)) : Except String IntentClassification :=
  if 0 ≤ confidence ∧ confidence ≤ 1 then
    .ok ⟨input_text, detected_intent, confidence, alternative_intents⟩
  else
    .error "ValidationError: confidence not in range 0..1"

/-! ## Intent classifier (src/skills/intelligence/intent_classifier.py) -/

/-- One entry of the classifier's `intent_patterns` table. -/
structure IntentEntry where
  keywords : List String
  patterns : List (List String)
  category : String
  weight : ℚ
deriving DecidableEq, Repr

/-- The fixed `intent_patterns` table of `IntentClassifier.__init__`;
patterns are given by their literal segments (`.*X.*` becomes `[X]`). -/
def intent_patterns : List (String × IntentEntry) :=
  [ ("deep_conversation",
      ⟨["为什么", "如何", "怎么", "原理", "深入", "详细", "解释", "分析"],
        [["为什么"], ["如何"], ["怎么"], ["原理"]], "conversation", 1⟩),
    ("storytelling",
      ⟨["故事", "经历", "冒险", "传说", "情节", "讲述", "分享"],
        [["讲", "故事"], ["分享", "经历"], ["冒险"]], "conversation", 1⟩),
    ("scientific_explanation",
      ⟨["科学", "物理", "相对论", "实验", "理论", "公式", "原理"],
        [["科学"], ["物理"], ["理论"], ["实验"]], "conversation", 1⟩),
    ("emotional_support",
      ⟨["难过", "开心", "困惑", "迷茫", "担心", "焦虑", "帮助"],
        [["难过"], ["担心"], ["困惑"], ["帮助"]], "conversation", 9/10⟩),
    ("humor",
      ⟨["笑话", "有趣", "幽默", "好玩", "搞笑", "开心"],
        [["笑话"], ["有趣"], ["幽默"]], "conversation", 4/5⟩),
    ("fact_lookup",
      ⟨["什么是", "定义", "介绍", "资料", "信息", "查找"],
        [["什么是"], ["定义"], ["介绍"]], "knowledge", 1⟩),
    ("analysis",
      ⟨["分析", "比较", "对比", "评价", "判断", "区别"],
        [["分析"], ["比较"], ["对比"]], "knowledge", 1⟩),
    ("memory_recall",
      ⟨["记得", "之前", "以前", "刚才", "上次", "历史"],
        [["记得"], ["之前"], ["以前"]], "knowledge", 9/10⟩),
    ("comparison",
      ⟨["比如", "像", "类似", "好比", "如同", "相当于"],
        [["比如"], ["像"], ["类似"]], "knowledge", 4/5⟩),
    ("creative_writing",
      ⟨["写", "创作", "诗", "文章", "小说", "剧本"],
        [["写"], ["创作"], ["诗"]], "creative", 1⟩),
    ("brainstorming",
      ⟨["想法", "创意", "点子", "思路", "灵感", "建议"],
        [["想法"], ["创意"], ["建议"]], "creative", 1⟩),
    ("roleplay",
      ⟨["扮演", "角色", "情景", "模拟", "假设"],
        [["扮演"], ["角色"], ["假设"]], "creative", 9/10⟩),
    ("imagination",
      ⟨["想象", "如果", "假如", "可能", "也许"],
        [["想象"], ["如果"], ["假如"]], "creative", 4/5⟩),
    ("translation",
      ⟨["翻译", "英文", "中文", "语言", "转换"],
        [["翻译"], ["英文"], ["中文"]], "utility", 1⟩),
    ("summarization",
      ⟨["总结", "概括", "归纳", "要点", "摘要"],
        [["总结"], ["概括"], ["归纳"]], "utility", 1⟩),
    ("planning",
      ⟨["计划", "安排", "规划", "步骤", "流程"],
        [["计划"], ["安排"], ["规划"]], "utility", 9/10⟩),
    ("reflection",
      ⟨["反思", "回顾", "总结", "经验", "教训"],
        [["反思"], ["回顾"], ["经验"]], "utility", 4/5⟩) ]

/-- The `emotion_keywords` table. -/
def emotion_keywords : List (String × List String) :=
  [ ("happy", ["开心", "高兴", "快乐", "愉快", "兴奋"]),
    ("sad", ["难过", "伤心", "沮丧", "失落", "悲伤"]),
    ("angry", ["生气", "愤怒", "恼火", "气愤", "不满"]),
    ("confused", ["困惑", "迷茫", "不懂", "疑惑", "不明白"]),
    ("anxious", ["担心", "焦虑", "紧张", "不安", "忧虑"]),
    ("curious", ["好奇", "想知道", "感兴趣", "想了解"]) ]

/-- The per-intent score of `IntentClassifier._calculate_intent_scores`
for a single table entry (the body of the loop). -/
def intentEntryScore (user_input : String) (e : IntentEntry) : ℚ :=
  let keyword_matches := (e.keywords.filter (fun kw => pyContains user_input kw)).length
  let s1 : ℚ := if keyword_matches > 0 then
      ((keyword_matches : ℚ) / (e.keywords.length : ℚ)) * (7/10) else 0
  let pattern_matches := (e.patterns.filter (fun p => matchesPattern p user_input)).length
  let s2 : ℚ := if pattern_matches > 0 then
      ((pattern_matches : ℚ) / (e.patterns.length : ℚ)) * (3/10) else 0
  (s1 + s2) * e.weight

/-- `IntentClassifier._calculate_intent_scores`: intents scoring 0 are dropped. -/
def calculate_intent_scores (user_input : String) : List (String × ℚ) :=
  intent_patterns.filterMap (fun p =>
    let score := intentEntryScore user_input p.2
    if score > 0 then some (p.1, score) else none)

/-- Scale the binding of `k` by `factor` when present
(`if k in adjusted_scores: adjusted_scores[k] *= factor`). -/
def scaleKey (k : String) (factor : ℚ) (scores : List (String × ℚ)) : List (String × ℚ) :=
  scores.map (fun p => if p.1 = k then (p.1, p.2 * factor) else p)

/-- `IntentClassifier._adjust_scores_by_context`. -/
def adjust_scores_by_context (scores : List (String × ℚ)) (ctx : SkillContext) :
    List (String × ℚ) :=
  let adjusted := scores
  let adjusted :=
    match ctx.character_name with
    | none => adjusted
    | some nm =>
      if pyContains nm "哈利" then
        scaleKey "roleplay" (6/5) (scaleKey "storytelling" (13/10) adjusted)
      else if pyContains nm "苏格拉底" then
        scaleKey "analysis" (13/10) (scaleKey "deep_conversation" (3/2) adjusted)
      else if pyContains nm "爱因斯坦" then
        scaleKey "imagination" (6/5) (scaleKey "scientific_explanation" (3/2) adjusted)
      else adjusted
  let adjusted :=
    if ctx.conversation_history.length > 5 then
      scaleKey "reflection" (11/10) (scaleKey "memory_recall" (6/5) adjusted)
    else adjusted
  if ctx.skill_history.isEmpty then adjusted
  else
    let recent_skills := ctx.skill_history.drop (ctx.skill_history.length - 3)
    adjusted.map (fun p =>
      let intent_category :=
        match alookup p.1 intent_patterns with
        | some e => e.category
        | none => ""
      let similar_recent_usage :=
        (recent_skills.filter (fun sk => pyContains sk.toLower intent_category)).length
      if similar_recent_usage > 1 then (p.1, p.2 * (4/5)) else p)

/-- `IntentClassifier._detect_emotion`. -/
def detect_emotion (user_input : String) : Option String :=
  let emotion_scores := emotion_keywords.filterMap (fun p =>
    let score := (p.2.filter (fun kw => pyContains user_input kw)).length
    if score > 0 then some (p.1, (score : ℚ)) else none)
  match argmaxFirst emotion_scores with
  | some q => some q.1
  | none => none

/-- `IntentClassifier.classify_intent`.  Entity extraction and the timing
fields do not influence any orchestration decision and are omitted; the
pydantic range check on `confidence` is the `mkIntentClassification` step. -/
def classify_intent (ctx : SkillContext) : Except String IntentClassification :=
  let user_input := ctx.user_input.toLower
  let intent_scores := calculate_intent_scores user_input
  let context_adjusted_scores := adjust_scores_by_context intent_scores ctx
  let best :=
    match argmaxFirst context_adjusted_scores with
    | some q => q
    | none => ("general_conversation", 1/2)
  let alternative_intents :=
    ((sortDescBy (fun p => p.2) context_adjusted_scores).take 3).filter
      (fun p => ¬ p.1 = best.1)
  mkIntentClassification ctx.user_input best.1 best.2 alternative_intents

/-! ## Skill matcher (src/skills/intelligence/skill_matcher.py) -/

/-- A skill as seen by the matcher: its metadata plus the values its
`can_handle` and `get_confidence_score` methods return for the request at
hand (both are abstract methods of `SkillBase`, so they are oracles here). -/
structure MatcherSkill where
  metadata : SkillMetadata
  can_handle_result : Bool
  confidence : ℚ
deriving DecidableEq, Repr

/-- The fixed `intent_to_category_mapping` table of `SkillMatcher.__init__`. -/
def intent_to_category_mapping : List (String × List SkillCategory) :=
  [ ("deep_conversation", [.conversation]),
    ("storytelling", [.conversation]),
    ("scientific_explanation", [.conversation, .knowledge]),
    ("emotional_support", [.conversation]),
    ("humor", [.conversation, .creative]),
    ("fact_lookup", [.knowledge]),
    ("analysis", [.knowledge]),
    ("memory_recall", [.knowledge]),
    ("comparison", [.knowledge]),
    ("creative_writing", [.creative]),
    ("brainstorming", [.creative]),
    ("roleplay", [.creative]),
    ("imagination", [.creative]),
    ("translation", [.utility]),
    ("summarization", [.utility]),
    ("planning", [.utility]),
    ("reflection", [.utility]) ]

/-- The fixed `character_skill_preferences` table of `SkillMatcher.__init__`. -/
def character_skill_preferences : List (String × List (String × ℚ)) :=
  [ ("哈利·波特",
      [("storytelling", 3/2), ("roleplay", 13/10), ("imagination", 6/5),
       ("emotional_support", 11/10)]),
    ("苏格拉底",
      [("deep_conversation", 3/2), ("analysis", 7/5), ("fact_lookup", 6/5),
       ("reflection", 13/10)]),
    ("阿尔伯特·爱因斯坦",
      [("scientific_explanation", 3/2), ("imagination", 13/10), ("analysis", 6/5),
       ("creative_writing", 11/10)]) ]

/-- `SkillMatcher._filter_skills_by_intent`.  Python's `list(set(...))` is
modelled by `eraseDups` (same membership; the arbitrary set order is fixed
to first occurrence). -/
def filter_skills_by_intent (available_skills : List MatcherSkill)
    (intent_classification : IntentClassification) : List MatcherSkill :=
  match alookup intent_classification.detected_intent intent_to_category_mapping with
  | none => available_skills
  | some relevant_categories =>
    let relevant_skills := available_skills.filter
      (fun sk => sk.metadata.category ∈ relevant_categories)
    let relevant_skills :=
      if relevant_skills.isEmpty ∧ ¬ intent_classification.alternative_intents.isEmpty then
        intent_classification.alternative_intents.foldl (fun acc alt =>
          let alt_categories := (alookup alt.1 intent_to_category_mapping).getD []
          acc ++ available_skills.filter (fun sk => sk.metadata.category ∈ alt_categories))
          relevant_skills
      else relevant_skills
    relevant_skills.eraseDups

/-- `SkillMatcher._calculate_intent_match_score`. -/
def calculate_intent_match_score (skill : MatcherSkill)
    (intent_classification : IntentClassification) : ℚ :=
  let relevant_categories :=
    (alookup intent_classification.detected_intent intent_to_category_mapping).getD []
  if skill.metadata.category ∈ relevant_categories then
    intent_classification.confidence
  else
    match intent_classification.alternative_intents.find? (fun alt =>
        skill.metadata.category ∈ (alookup alt.1 intent_to_category_mapping).getD []) with
    | some alt => alt.2 * (7/10)
    | none => 0

/-- `SkillMatcher._calculate_character_preference_score`.  An absent
character dict and an empty name both take the default branch, as in the
source's truthiness tests. -/
def calculate_character_preference_score (skill : MatcherSkill) (ctx : SkillContext) : ℚ :=
  match ctx.character_name with
  | none => 1/2
  | some character_name =>
    if character_name = "" then 1/2
    else if ¬ skill.metadata.character_compatibility.isEmpty ∧
        character_name ∉ skill.metadata.character_compatibility then 1/10
    else
      let character_preferences := (alookup character_name character_skill_preferences).getD []
      let skill_preference := (alookup skill.metadata.name character_preferences).getD 1
      match ctx.detected_intent with
      | some intent =>
        let intent_preference := (alookup intent character_preferences).getD 1
        min (skill_preference * intent_preference) 2 / 2
      | none => min skill_preference 2 / 2

/-- `SkillMatcher._calculate_context_relevance_score`. -/
def calculate_context_relevance_score (skill : MatcherSkill) (ctx : SkillContext) : ℚ :=
  let score : ℚ := 1/2
  let score :=
    if ctx.conversation_history.length > 10 ∧
        (pyContains skill.metadata.name.toLower "memory" ∨
         pyContains skill.metadata.name.toLower "reflection") then
      score + 1/5
    else score
  let score :=
    match ctx.emotional_state with
    | none => score
    | some emotional_state =>
      if (emotional_state = "sad" ∨ emotional_state = "anxious") ∧
          pyContains skill.metadata.name.toLower "emotional_support" then
        score + 3/10
      else if emotional_state = "curious" ∧ skill.metadata.category = .knowledge then
        score + 1/5
      else score
  let score :=
    if ctx.skill_history.isEmpty then score
    else
      let recent_skills := ctx.skill_history.drop (ctx.skill_history.length - 5)
      if skill.metadata.name ∈ recent_skills then score - 1/5 else score
  max 0 (min 1 score)

/-- `SkillMatcher._calculate_skill_score`: the 0.4/0.3/0.2/0.1 blend times
`config.weight`, floored to 0 below the trigger threshold. -/
def calculate_skill_score (skill : MatcherSkill) (config : SkillConfig)
    (ctx : SkillContext) (intent_classification : IntentClassification) : ℚ :=
  let base_score :=
    skill.confidence * (4/10) +
    calculate_intent_match_score skill intent_classification * (3/10) +
    calculate_character_preference_score skill ctx * (2/10) +
    calculate_context_relevance_score skill ctx * (1/10)
  let weighted_score := base_score * config.weight
  if weighted_score < config.threshold then 0 else weighted_score

/-- `SkillMatcher._is_skill_in_cooldown`: the wall-clock comparison of the
last-used timestamp against `datetime.now()` is the oracle
`elapsed_lt_cooldown`. -/
def is_skill_in_cooldown (elapsed_lt_cooldown : String → Bool) (skill_name : String)
    (config : SkillConfig) : Bool :=
  if config.cooldown_seconds ≤ 0 then false
  else elapsed_lt_cooldown skill_name

/-- `SkillMatcher.match_skills`.  The source first invokes the classifier and
writes the detected intent and confidence back into the context; here the
classification is passed in and the write-back is the context update below. -/
def match_skills (intent_classification : IntentClassification) (ctx : SkillContext)
    (available_skills : List MatcherSkill) (skill_configs : List (String × SkillConfig))
    (elapsed_lt_cooldown : String → Bool) (max_skills : Nat) :
    List (MatcherSkill × SkillConfig × ℚ) :=
  let ctx := { ctx with
    detected_intent := some intent_classification.detected_intent,
    intent_confidence := intent_classification.confidence }
  let relevant_skills := filter_skills_by_intent available_skills intent_classification
  if relevant_skills.isEmpty then []
  else
    let skill_scores := relevant_skills.filterMap (fun sk =>
      let config := (alookup sk.metadata.name skill_configs).getD
        (defaultSkillConfig sk.metadata.name none)
      if ¬ sk.can_handle_result then none
      else if is_skill_in_cooldown elapsed_lt_cooldown sk.metadata.name config then none
      else
        let score := calculate_skill_score sk config ctx intent_classification
        if score > 0 then some (sk, config, score) else none)
    (sortDescBy (fun t => t.2.2) skill_scores).take max_skills

/-! ## Context builder (src/skills/core/context.py) -/

/-- `ContextManager` state: the three scoped key/value stores. -/
structure ContextManager where
  global_context : List (String × String)
  session_contexts : List (String × List (String × String))
  conversation_contexts : List (Int × List (String × String))
deriving DecidableEq, Repr

/-- The dict-literal merge of `create_skill_context`:
`context_data = dict(**global, **conversation, **session)` with later
unpackings overwriting earlier ones. -/
def mergeContextData (global_ctx conversation_ctx session_ctx : List (String × String)) :
    List (String × String) :=
  insertAll (insertAll (insertAll [] global_ctx) conversation_ctx) session_ctx

/-- `ContextManager.create_skill_context` (`request_id` stands in for the
fresh uuid; `_get_skill_history` returns `[]` in the source). -/
def create_skill_context (cm : ContextManager) (user_input : String)
    (character_id : Option Int) (conversation_id : Option Int) (message_id : Option Int)
    (character_name : Option String) (conversation_history : Option (List (String × String)))
    (session_id : Option String) (request_id : Nat) : SkillContext :=
  let session_data :=
    match session_id with
    | some sid => (alookup sid cm.session_contexts).getD []
    | none => []
  let conversation_context_data :=
    match conversation_id with
    | some cid => (alookup cid cm.conversation_contexts).getD []
    | none => []
  let context_data := mergeContextData cm.global_context conversation_context_data session_data
  { user_input := user_input
    character_name := character_name
    character_id := character_id
    conversation_id := conversation_id
    message_id := message_id
    conversation_history := conversation_history.getD []
    skill_history := []
    context_data := context_data
    session_data := session_data
    detected_intent := none
    intent_confidence := 0
    emotional_state := none
    request_id := request_id }

/-! ## Skill base class (src/skills/core/base.py) -/

/-- A Python exception, split by the two `except` clauses of the executor. -/
inductive PyExc
  | timeoutError
  | valueError (msg : String)
  | other (msg : String)
deriving DecidableEq, Repr

/-- Python `str(e)`. -/
def PyExc.message : PyExc → String
  | timeoutError => ""
  | valueError msg => msg
  | other msg => msg

/-- Outcome of `await asyncio.wait_for(self.execute(...), timeout=...)`:
the skill returns a result after `duration` seconds, raises, or the wait
times out.  Durations stand for the `time.time()` differences the source
measures. -/
inductive ExecOutcome
  | ok (result : SkillResult) (duration : ℚ)
  | raises (e : PyExc) (duration : ℚ)
  | timesOut (duration : ℚ)
deriving DecidableEq, Repr

/-- The behaviour of one skill invocation: what `can_handle`, the lifecycle
hooks and `execute` do for the request at hand (they are abstract or
overridable methods of `SkillBase`, so they are oracles here). -/
structure SkillBehavior where
  can_handle : Except PyExc Bool
  before_hook : Except PyExc Unit
  exec_outcome : ExecOutcome
  after_hook : Except PyExc Unit
  error_hook : Except PyExc Unit
deriving Repr

/-- The mutable per-instance state of `SkillBase`. -/
structure SkillState where
  execution_cache : List (String × SkillResult)
  total_executions : Nat
  successful_executions : Nat
  failed_executions : Nat
  total_execution_time : ℚ
deriving DecidableEq, Repr

/-- `SkillBase._generate_cache_key`: name, user input, character id and the
config parameters.  The source hashes a `frozenset` of the parameter items;
here the parameter list is embedded directly, which keeps the property the
engine relies on: identical inputs give identical keys. -/
def generate_cache_key (md : SkillMetadata) (ctx : SkillContext) (config : SkillConfig) :
    String :=
  String.intercalate "|"
    [md.name, ctx.user_input,
     (match ctx.character_id with
      | some i => toString i
      | none => "None"),
     String.intercalate "," (config.parameters.map (fun p => p.1 ++ "=" ++ p.2))]

/-- `SkillBase.execute_with_monitoring`: cache check, timeout-guarded
execution, statistics update and caching of successful results.  All
exception paths of the source return an error `SkillResult`, so this
function is total.  On a cache hit the source assigns
`cached_result.execution_time = 0.0` on the shared object, so both the
returned result and the cache binding carry the zeroed time. -/
def execute_with_monitoring (md : SkillMetadata) (beh : SkillBehavior)
    (ctx : SkillContext) (config : SkillConfig) (execution_id : Nat) (s : SkillState) :
    SkillResult × SkillState :=
  let run : SkillState → SkillResult × SkillState := fun s =>
    let s := { s with total_executions := s.total_executions + 1 }
    match beh.exec_outcome with
    | .ok result duration =>
      let result := { result with
        execution_id := execution_id
        execution_time := duration
        status := .completed }
      let s := { s with
        successful_executions := s.successful_executions + 1
        total_execution_time := s.total_execution_time + duration }
      let s :=
        if md.cache_results then
          { s with execution_cache :=
              (dictInsert (generate_cache_key md ctx config) result s.execution_cache) }
        else s
      (result, s)
    | .timesOut duration =>
      ({ skill_name := md.name, execution_id := execution_id, status := .timeout
         generated_content := none, execution_time := duration
         error_message := "技能执行超时"
         error_code := some "TIMEOUT"
         confidence_score := 0, relevance_score := 0, quality_score := 0 },
       { s with failed_executions := s.failed_executions + 1 })
    | .raises e duration =>
      ({ skill_name := md.name, execution_id := execution_id, status := .failed
         generated_content := none, execution_time := duration
         error_message := some e.message
         error_code := some "EXECUTION_ERROR"
         confidence_score := 0, relevance_score := 0, quality_score := 0 },
       { s with failed_executions := s.failed_executions + 1 })
  if md.cache_results then
    match alookup (generate_cache_key md ctx config) s.execution_cache with
    | some cached_result =>
      let hit := { cached_result with execution_time := 0 }
      (hit, { s with execution_cache :=
          (dictInsert (generate_cache_key md ctx config) hit s.execution_cache) })
    | none => run s
  else run s

/-! ## Async executor (src/skills/core/executor.py) -/

/-- `AsyncSkillExecutor` mutable state: the active-execution map and a
counter standing in for `uuid.uuid4()` freshness. -/
structure ExecutorState where
  active_executions : List (Nat × SkillExecution)
  next_execution_id : Nat
deriving DecidableEq, Repr

/-- `AsyncSkillExecutor.get_active_executions` (returns a copy). -/
def get_active_executions (es : ExecutorState) : List (Nat × SkillExecution) :=
  es.active_executions

/-- The `except asyncio.TimeoutError` / `except Exception` handlers of
`AsyncSkillExecutor.execute_skill` (including the guarded `on_error` hook,
whose own exception is caught and logged). -/
def executorErrorResult (md : SkillMetadata) (execution_id : Nat) (e : PyExc) : SkillResult :=
  match e with
  | .timeoutError =>
    { skill_name := md.name, execution_id := execution_id, status := .timeout
      generated_content := none, execution_time := 0
      error_message := "技能执行超时"
      error_code := some "TIMEOUT"
      confidence_score := 0, relevance_score := 0, quality_score := 0 }
  | _ =>
    { skill_name := md.name, execution_id := execution_id, status := .failed
      generated_content := none, execution_time := 0
      error_message := some e.message
      error_code := some "EXECUTION_ERROR"
      confidence_score := 0, relevance_score := 0, quality_score := 0 }

/-- `AsyncSkillExecutor.execute_skill`: insert the bookkeeping record with
status `running`, run the guarded body, convert any exception into a
`failed`/`timeout` result, and in all paths delete the record in the
`finally` block.  The wall-clock `execution_time` of the bookkeeping record
is abstracted to the behaviour's duration (it does not flow into the
returned result on the success path). -/
def execute_skill (md : SkillMetadata) (beh : SkillBehavior) (ctx : SkillContext)
    (config : SkillConfig) (es : ExecutorState) (s : SkillState) :
    SkillResult × ExecutorState × SkillState :=
  let execution_id := es.next_execution_id
  let running : SkillExecution :=
    { id := execution_id, skill_name := md.name, status := .running,
      progress := 1/10, result := none }
  let active := dictInsert execution_id running es.active_executions
  let finishWith : SkillResult → SkillState → SkillResult × ExecutorState × SkillState :=
    fun r s' => (r, ⟨dictErase execution_id active, execution_id + 1⟩, s')
  match beh.can_handle with
  | .error e => finishWith (executorErrorResult md execution_id e) s
  | .ok false =>
    finishWith
      (executorErrorResult md execution_id
        (.valueError ("技能 '" ++ md.name ++ "' 无法处理当前请求"))) s
  | .ok true =>
    match beh.before_hook with
    | .error e => finishWith (executorErrorResult md execution_id e) s
    | .ok _ =>
      let rs := execute_with_monitoring md beh ctx config execution_id s
      match beh.after_hook with
      | .error e => finishWith (executorErrorResult md execution_id e) rs.2
      | .ok _ => finishWith rs.1 rs.2

/-- One entry of the `skill_configs` list handed to the executor: the skill
(metadata, per-request behaviour, per-instance state), the context and the
config. -/
structure SkillTask where
  metadata : SkillMetadata
  behavior : SkillBehavior
  context : SkillContext
  config : SkillConfig
  state : SkillState
deriving Repr

/-- `AsyncSkillExecutor.execute_skills_parallel`: every task produces
exactly one result (`gather(..., return_exceptions=True)`; `execute_skill`
is total, so the `isinstance(result, Exception)` arm is unreachable).  The
caller-visible result list preserves input order; the model threads the
executor state in that order, one admissible interleaving. -/
def execute_skills_parallel (tasks : List SkillTask) (es : ExecutorState) :
    List SkillResult × ExecutorState :=
  match tasks with
  | [] => ([], es)
  | t :: rest =>
    let out := execute_skill t.metadata t.behavior t.context t.config es t.state
    let tail := execute_skills_parallel rest out.2.1
    (out.1 :: tail.1, tail.2)

/-- `AsyncSkillExecutor.execute_skills_sequential` with its `stop_on_error`
flag (`execute_skill` is total, so the wrapper's `except` arm is
unreachable). -/
def execute_skills_sequential (tasks : List SkillTask) (stop_on_error : Bool)
    (es : ExecutorState) : List SkillResult × ExecutorState :=
  match tasks with
  | [] => ([], es)
  | t :: rest =>
    let out := execute_skill t.metadata t.behavior t.context t.config es t.state
    if stop_on_error ∧ (out.1.status = .failed ∨ out.1.status = .timeout) then
      ([out.1], out.2.1)
    else
      let tail := execute_skills_sequential rest stop_on_error out.2.1
      (out.1 :: tail.1, tail.2)

/-- `AsyncSkillExecutor._execute_skills_adaptive`: fast skills
(`concurrent_limit > 1` and `max_execution_time <= 10`) run in parallel
first, the rest sequentially; results are concatenated. -/
def execute_skills_adaptive (tasks : List SkillTask) (es : ExecutorState) :
    List SkillResult × ExecutorState :=
  let isParallel : SkillTask → Bool := fun t =>
    t.metadata.concurrent_limit > 1 ∧ t.metadata.max_execution_time ≤ 10
  let parallel_skills := tasks.filter isParallel
  let sequential_skills := tasks.filter (fun t => ! isParallel t)
  let p := execute_skills_parallel parallel_skills es
  let q := execute_skills_sequential sequential_skills false p.2
  (p.1 ++ q.1, q.2)

/-- `AsyncSkillExecutor.execute_skills_with_strategy`: dispatch on the
strategy string, raising `ValueError` on an unsupported strategy. -/
def execute_skills_with_strategy (tasks : List SkillTask) (strategy : String)
    (es : ExecutorState) : Except PyExc (List SkillResult × ExecutorState) :=
  if strategy = "parallel" then .ok (execute_skills_parallel tasks es)
  else if strategy = "sequential" then .ok (execute_skills_sequential tasks false es)
  else if strategy = "adaptive" then .ok (execute_skills_adaptive tasks es)
  else .error (.valueError ("不支持的执行策略: " ++ strategy))

/-! ## Manager facade (src/skills/core/manager.py) -/

/-- `SkillManager._assess_result_quality`: length-based quality boost and
lexical-overlap relevance boost.  `user_words` / `content_words` are Python
sets, so the overlap counts distinct common words. -/
def assess_result_quality (ctx : SkillContext) (result : SkillResult) : SkillResult :=
  match result.generated_content with
  | none => result
  | some content =>
    if content = "" then result
    else
      let content_length := content.length
      let result :=
        if content_length > 100 then
          { result with quality_score := min (9/10) (result.quality_score + 2/10) }
        else if content_length > 50 then
          { result with quality_score := min (8/10) (result.quality_score + 1/10) }
        else result
      let user_words := (pySplitWhitespace ctx.user_input.toLower).eraseDups
      let content_words := (pySplitWhitespace content.toLower).eraseDups
      let overlap := (user_words.filter (fun w => w ∈ content_words)).length
      if overlap > 0 then
        { result with relevance_score :=
            (min 1 (result.relevance_score + min (3/10) ((overlap : ℚ) * (1/10)))) }
      else result

/-- `SkillManager._optimize_result_content`: strip the content and drop
blank lines. -/
def optimize_result_content (result : SkillResult) : SkillResult :=
  match result.generated_content with
  | none => result
  | some content =>
    if content = "" then result
    else
      let content := content.trim
      let content := String.intercalate "\n"
        ((content.splitOn "\n").filter (fun line => ¬ line.trim = ""))
      { result with generated_content := some content }

/-- `SkillManager._post_process_results`: quality assessment then content
optimization for each result (both are total here, so the per-result
`except` arm that would keep the original result is unreachable). -/
def post_process_results (ctx : SkillContext) (results : List SkillResult) :
    List SkillResult :=
  results.map (fun r => optimize_result_content (assess_result_quality ctx r))

/-- `SkillManager.process_user_input`, from the point where skills have been
selected (`selected`): execute under the strategy and post-process.  The
surrounding `try` converts any exception — including the unsupported-strategy
`ValueError` — into an empty result list, so the facade never raises. -/
def process_user_input (ctx : SkillContext) (selected : List SkillTask)
    (strategy : String) (es : ExecutorState) : List SkillResult × ExecutorState :=
  if selected.isEmpty then ([], es)
  else
    match execute_skills_with_strategy selected strategy es with
    | .ok (results, es') => (post_process_results ctx results, es')
    | .error _ => ([], es)

/-! ## Semaphore protocol of the executor (src/skills/core/executor.py)

`execute_skill` inserts its bookkeeping record and sets it `running`
*before* suspending on `async with self._execution_semaphore` (lines 60-67),
holds the semaphore while the skill runs, and releases it on exit.  The
cooperative interleavings of concurrent `execute_skill` calls are the
following transition system. -/

/-- The scheduling phases of one `execute_skill` task. -/
inductive TaskPhase
  | notStarted
  | waitingSem
  | holdingSem
  | finished
deriving DecidableEq, Repr

/-- A record with status `running` exists in `_active_executions` from the
moment the task starts until it finishes (insertion happens before the
semaphore is acquired). -/
def phaseHasRunningRecord : TaskPhase → Bool
  | .waitingSem => true
  | .holdingSem => true
  | _ => false

/-- Global state of `n` concurrent `execute_skill` calls sharing the
executor's counting semaphore. -/
structure SemState where
  tasks : List TaskPhase
  permits : Nat
deriving DecidableEq, Repr

/-- All tasks created, none started; the semaphore holds
`max_concurrent_executions` permits. -/
def initSemState (n max_concurrent_executions : Nat) : SemState :=
  ⟨List.replicate n .notStarted, max_concurrent_executions⟩

/-- One cooperative step: a task runs its pre-semaphore block (inserting its
`running` record), acquires a free permit, or finishes (releasing the permit
and deleting its record in `finally`). -/
inductive SemStep : SemState → SemState → Prop
  | start (s : SemState) (i : Nat) (h : s.tasks.get? i = some .notStarted) :
      SemStep s ⟨s.tasks.set i .waitingSem, s.permits⟩
  | acquire (s : SemState) (i : Nat) (h : s.tasks.get? i = some .waitingSem)
      (hp : 0 < s.permits) :
      SemStep s ⟨s.tasks.set i .holdingSem, s.permits - 1⟩
  | finish (s : SemState) (i : Nat) (h : s.tasks.get? i = some .holdingSem) :
      SemStep s ⟨s.tasks.set i .finished, s.permits + 1⟩

/-- States reachable by an executor run of `n` tasks under bound
`max_concurrent_executions`. -/
def SemReachable (n max_concurrent_executions : Nat) (s : SemState) : Prop :=
  Relation.ReflTransGen SemStep (initSemState n max_concurrent_executions) s

/-- Number of `SkillExecution` records whose status is `running`. -/
def runningRecords (s : SemState) : Nat :=
  s.tasks.countP phaseHasRunningRecord

/-- Number of tasks currently inside the semaphore-guarded region. -/
def holdingCount (s : SemState) : Nat :=
  s.tasks.countP (fun p => p == .holdingSem)

/-! ## Properties and concrete fixtures -/

/-- The error-conversion discipline the caller relies on: a result produced
by an execution attempt is `completed`, `failed` or `timeout`, and failure
results carry an error code. -/
def resultConverted (r : SkillResult) : Prop :=
  (r.status = .completed ∨ r.status = .failed ∨ r.status = .timeout) ∧
  (¬ r.status = .completed → ¬ r.error_code = none)

/-- Well-formedness of a skill's result cache: only successful results are
ever stored in it (`execute_with_monitoring` caches only on the success
path). -/
def CacheWF (s : SkillState) : Prop :=
  ∀ k r, (k, r) ∈ s.execution_cache → r.status = .completed

/-- A context carrying only an input string (all other arguments absent). -/
def mkSimpleContext (s : String) : SkillContext :=
  ⟨s, none, none, none, none, [], [], [], [], none, 0, none, 0⟩

/-- A fresh skill-instance state: empty cache, zeroed statistics. -/
def freshSkillState : SkillState := ⟨[], 0, 0, 0, 0⟩

/-- A fresh executor state: no active executions. -/
def freshExecutorState : ExecutorState := ⟨[], 0⟩

/-- The input that triggers the classifier's confidence overflow: it matches
all eight `deep_conversation` keywords and all four of its patterns, and the
character name matches the Socrates context boost. -/
def ctxSocrates : SkillContext :=
  { mkSimpleContext "为什么如何怎么原理深入详细解释分析" with
    character_name := some "苏格拉底" }

/-- A behaviour whose `execute` returns `result` after `duration` seconds and
whose `can_handle` and hooks succeed. -/
def okBehavior (result : SkillResult) (duration : ℚ) : SkillBehavior :=
  ⟨.ok true, .ok (), .ok result duration, .ok (), .ok ()⟩

/-- A behaviour whose `execute` raises after `duration` seconds. -/
def raisingBehavior (msg : String) (duration : ℚ) : SkillBehavior :=
  ⟨.ok true, .ok (), .raises (.other msg) duration, .ok (), .ok ()⟩

/-- Metadata of a cacheable conversational skill used in the examples. -/
def storytellingMetadata : SkillMetadata :=
  ⟨"storytelling", .conversation, [], 30, 1, true, true⟩

/-- The pending content-only result a well-behaved example skill returns
(`execute` implementations fill status and timing in monitoring). -/
def storyResult : SkillResult :=
  ⟨"storytelling", 0, .pending, some "从前有一座山", 0, none, none, 4/5, 0, 0⟩

/-- The storytelling skill as the matcher sees it for one request. -/
def convSkill : MatcherSkill := ⟨storytellingMetadata, true, 1/2⟩

/-- A classification whose detected intent maps to the knowledge category
and that carries no alternative intents. -/
def clsAnalysis : IntentClassification := ⟨"分析一下这个问题", "analysis", 9/10, []⟩

/-- A classification whose detected intent has no entry in the
intent→category table. -/
def clsUnmapped : IntentClassification := ⟨"你好", "general_conversation", 1/2, []⟩

/-- A config whose trigger threshold is the maximum 1.0. -/
def cfgFullThreshold : SkillConfig := ⟨"storytelling", none, [], 1, 1, true, 0⟩

/-- Metadata of a non-cacheable knowledge skill used in the examples. -/
def analysisMetadata : SkillMetadata := ⟨"analysis", .knowledge, [], 30, 1, false, true⟩

/-- A task whose skill succeeds. -/
def taskOk : SkillTask :=
  ⟨storytellingMetadata, okBehavior storyResult 2, mkSimpleContext "讲个故事",
   defaultSkillConfig "storytelling" none, freshSkillState⟩

/-- A task whose skill raises. -/
def taskFail : SkillTask :=
  ⟨analysisMetadata, raisingBehavior "boom" 1, mkSimpleContext "讲个故事",
   defaultSkillConfig "analysis" none, freshSkillState⟩

/-- A classification detecting the storytelling intent. -/
def clsStory : IntentClassification := ⟨"讲个故事", "storytelling", 3/5, []⟩

/-! ## Lemmas about the dictionary model -/

theorem alookup_eq_none_of_not_mem {κ β : Type} [DecidableEq κ] (k : κ)
    (l : List (κ × β)) (h : k ∉ l.map Prod.fst) : alookup k l = none := by
  induction l with
  | nil => rfl
  | cons p rest ih =>
    obtain ⟨a, b⟩ := p
    simp only [List.map_cons, List.mem_cons, not_or] at h
    simp only [alookup, if_neg h.1]
    exact ih h.2

theorem mem_of_alookup_eq_some {κ β : Type} [DecidableEq κ] {k : κ} {v : β}
    {l : List (κ × β)} (h : alookup k l = some v) : (k, v) ∈ l := by
  induction l with
  | nil => simp [alookup] at h
  | cons p rest ih =>
    obtain ⟨a, b⟩ := p
    by_cases hk : k = a
    · subst hk
      have hv : alookup k ((k, b) :: rest) = some b := by simp [alookup]
      rw [hv] at h
      injection h with h
      subst h
      exact List.mem_cons_self _ _
    · simp only [alookup, if_neg hk] at h
      exact List.mem_cons_of_mem _ (ih h)

theorem alookup_dictInsert {κ β : Type} [DecidableEq κ] (k k' : κ) (v : β)
    (d : List (κ × β)) :
    alookup k (dictInsert k' v d) = if k = k' then some v else alookup k d := by
  induction d with
  | nil => simp [dictInsert, alookup]
  | cons p rest ih =>
    obtain ⟨a, b⟩ := p
    by_cases hak : a = k'
    · subst hak
      simp only [dictInsert, if_pos rfl]
      by_cases hk : k = a
      · subst hk
        simp [alookup]
      · simp [alookup, hk]
    · simp only [dictInsert, if_neg hak]
      by_cases hk : k = a
      · subst hk
        have hkk' : ¬ k = k' := hak
        simp [alookup, hkk']
      · simp only [alookup, if_neg hk]
        exact ih

theorem alookup_dictErase_self {κ β : Type} [DecidableEq κ] (k : κ) (d : List (κ × β)) :
    alookup k (dictErase k d) = none := by
  induction d with
  | nil => rfl
  | cons p rest ih =>
    obtain ⟨a, b⟩ := p
    by_cases hk : a = k
    · simp only [dictErase, List.filter]
      simp only [hk, decide_not, decide_True, Bool.not_true]
      simpa [dictErase] using ih
    · simp only [dictErase, List.filter] at ih ⊢
      simp only [hk, decide_not, decide_False, Bool.not_false]
      have hk' : ¬ k = a := fun h => hk h.symm
      simpa [alookup, hk'] using ih

theorem alookup_insertAll {κ β : Type} [DecidableEq κ] (es d : List (κ × β)) (k : κ)
    (hnd : (es.map Prod.fst).Nodup) :
    alookup k (insertAll d es) = firstSome (alookup k es) (alookup k d) := by
  induction es generalizing d with
  | nil => simp [insertAll, alookup, firstSome]
  | cons p rest ih =>
    obtain ⟨a, b⟩ := p
    simp only [List.map_cons, List.nodup_cons] at hnd
    have hstep : insertAll d ((a, b) :: rest) = insertAll (dictInsert a b d) rest := rfl
    rw [hstep, ih _ hnd.2]
    by_cases hk : k = a
    · subst hk
      have hrest : alookup k rest = none :=
        alookup_eq_none_of_not_mem k rest hnd.1
      simp [alookup, hrest, firstSome, alookup_dictInsert]
    · simp [alookup, hk, firstSome, alookup_dictInsert]

/-! ## C5: scope precedence in the merged context data -/

/-- C5 counterexample input: the same key bound in all three scopes. -/
def cmThreeScopes : ContextManager :=
  ⟨[("k", "global-value")],
   [("sid", [("k", "session-value")])],
   [((1 : Int), [("k", "conversation-value")])]⟩

/-- C5, counterexample: with the key `"k"` bound globally, in the
conversation scope and in the session scope, the built context binds it to
the session-scoped value, not the conversation-scoped one claimed: the
merge in `create_skill_context` unpacks `session_data` last, so session
overrides conversation. -/
theorem context_merge_session_wins_example :
    alookup "k" (create_skill_context cmThreeScopes "你好" none (some 1) none none
        none (some "sid") 0).context_data = some "session-value" ∧
    ¬ alookup "k" (create_skill_context cmThreeScopes "你好" none (some 1) none none
        none (some "sid") 0).context_data = some "conversation-value" := by
  constructor
  · rfl
  · intro h
    simp only [create_skill_context, cmThreeScopes] at h
    exact absurd h (by decide)

theorem firstSome_none_right {β : Type} (a : Option β) : firstSome a none = a := by
  cases a <;> rfl

/-- C5 (amended): the context-data map binds each key to the
session-scoped value when present, else the conversation-scoped value,
else the global value — session takes precedence over conversation over
global. -/
theorem context_merge_precedence (cm : ContextManager) (user_input : String)
    (character_id : Option Int) (cid : Int) (message_id : Option Int)
    (character_name : Option String)
    (conversation_history : Option (List (String × String))) (sid : String)
    (request_id : Nat) (k : String)
    (sdata cdata : List (String × String))
    (hs : alookup sid cm.session_contexts = some sdata)
    (hc : alookup cid cm.conversation_contexts = some cdata)
    (hnds : (sdata.map Prod.fst).Nodup)
    (hndc : (cdata.map Prod.fst).Nodup)
    (hndg : (cm.global_context.map Prod.fst).Nodup) :
    alookup k (create_skill_context cm user_input character_id (some cid) message_id
        character_name conversation_history (some sid) request_id).context_data =
      firstSome (alookup k sdata)
        (firstSome (alookup k cdata) (alookup k cm.global_context)) := by
  simp only [create_skill_context, mergeContextData, hs, hc, Option.getD_some]
  rw [alookup_insertAll _ _ _ hnds, alookup_insertAll _ _ _ hndc,
    alookup_insertAll _ _ _ hndg]
  have hbase : alookup k ([] : List (String × String)) = none := rfl
  rw [hbase, firstSome_none_right]

theorem context_merge_precedence_witness :
    alookup "k" (create_skill_context cmThreeScopes "你好" none (some 1) none none
        none (some "sid") 0).context_data =
      firstSome (alookup "k" [("k", "session-value")])
        (firstSome (alookup "k" [("k", "conversation-value")])
          (alookup "k" cmThreeScopes.global_context)) :=
  context_merge_precedence cmThreeScopes "你好" none 1 none none none "sid" 0 "k"
    [("k", "session-value")] [("k", "conversation-value")]
    (by decide) (by decide) (by decide) (by decide) (by decide)

/-! ## C10: the bookkeeping record is gone once executeOne returns -/

/-- C10: after every `execute_skill` call returns — completed, failed or
timeout alike — the `finally` block has deleted the execution's record from
`_active_executions`, so `get_active_executions` never reports it. -/
theorem execute_skill_removes_active_record (md : SkillMetadata) (beh : SkillBehavior)
    (ctx : SkillContext) (config : SkillConfig) (es : ExecutorState) (s : SkillState) :
    alookup es.next_execution_id
      (get_active_executions (execute_skill md beh ctx config es s).2.1) = none := by
  simp only [execute_skill, get_active_executions]
  rcases hch : beh.can_handle with e | b
  · simp [alookup_dictErase_self]
  · cases b
    · simp [alookup_dictErase_self]
    · rcases hbh : beh.before_hook with e | u
      · simp [alookup_dictErase_self]
      · rcases hah : beh.after_hook with e | u
        · simp [alookup_dictErase_self]
        · simp [alookup_dictErase_self]

/-! ## C2: the semaphore bound -/

theorem countP_set_exchange {α : Type} (p : α → Bool) (l : List α) (i : Nat) (a b : α)
    (h : l.get? i = some b) :
    (l.set i a).countP p + (if p b then 1 else 0) =
      l.countP p + (if p a then 1 else 0) := by
  induction l generalizing i with
  | nil => simp at h
  | cons c rest ih =>
    cases i with
    | zero =>
      simp only [List.get?] at h
      injection h with h
      subst h
      simp only [List.set, List.countP_cons]
      omega
    | succ j =>
      simp only [List.get?] at h
      simp only [List.set, List.countP_cons]
      have := ih j h
      omega

theorem countP_replicate_notStarted (p : TaskPhase → Bool) (n : Nat)
    (hp : p .notStarted = false) :
    (List.replicate n TaskPhase.notStarted).countP p = 0 := by
  induction n with
  | zero => rfl
  | succ m ih => simp [List.replicate, List.countP_cons, hp, ih]

/-- The semaphore invariant: permits held plus permits free is the bound. -/
theorem sem_invariant (n m : Nat) (s : SemState) (h : SemReachable n m s) :
    holdingCount s + s.permits = m := by
  induction h with
  | refl =>
    simp [initSemState, holdingCount, countP_replicate_notStarted]
  | tail hsteps hstep ih =>
    cases hstep with
    | start i hi =>
      rename_i mid
      have hx := countP_set_exchange (fun p => p == TaskPhase.holdingSem)
        mid.tasks i TaskPhase.waitingSem TaskPhase.notStarted hi
      simp only [holdingCount] at ih ⊢
      simp only [beq_iff_eq] at hx
      simp at hx
      omega
    | acquire i hi hp =>
      rename_i mid
      have hx := countP_set_exchange (fun p => p == TaskPhase.holdingSem)
        mid.tasks i TaskPhase.holdingSem TaskPhase.waitingSem hi
      simp only [holdingCount] at ih ⊢
      simp only [beq_iff_eq] at hx
      simp at hx
      omega
    | finish i hi =>
      rename_i mid
      have hx := countP_set_exchange (fun p => p == TaskPhase.holdingSem)
        mid.tasks i TaskPhase.finished TaskPhase.holdingSem hi
      simp only [holdingCount] at ih ⊢
      simp only [beq_iff_eq] at hx
      simp at hx
      omega

/-- C2, counterexample: two concurrent `execute_skill` calls under bound 1
can both have inserted their `running` records before either acquires the
semaphore (`execute_skill` sets the record to `running` before the
`async with` suspension point), so the number of `running` records exceeds
`max_concurrent_executions`. -/
theorem running_records_can_exceed_bound :
    ¬ (∀ s : SemState, SemReachable 2 1 s → runningRecords s ≤ 1) := by
  intro hclaim
  have h1 : SemStep (initSemState 2 1) ⟨[.waitingSem, .notStarted], 1⟩ :=
    SemStep.start (initSemState 2 1) 0 rfl
  have h2 : SemStep ⟨[.waitingSem, .notStarted], 1⟩ ⟨[.waitingSem, .waitingSem], 1⟩ :=
    SemStep.start ⟨[.waitingSem, .notStarted], 1⟩ 1 rfl
  have hreach : SemReachable 2 1 ⟨[.waitingSem, .waitingSem], 1⟩ :=
    Relation.ReflTransGen.tail (Relation.ReflTransGen.single h1) h2
  have hle := hclaim _ hreach
  have : runningRecords ⟨[.waitingSem, .waitingSem], 1⟩ = 2 := rfl
  omega

/-- C2 (amended): what the counting semaphore actually bounds is the number
of executions concurrently inside the semaphore-guarded region — at most
`max_concurrent_executions` tasks hold a permit at any time.  Records marked
`running` can exceed the bound while their tasks still wait on the
semaphore, since `execute_skill` sets the status before acquiring it. -/
theorem semaphore_bounds_holding (n m : Nat) (s : SemState)
    (h : SemReachable n m s) : holdingCount s ≤ m := by
  have := sem_invariant n m s h
  omega

theorem semaphore_bounds_holding_witness :
    SemReachable 2 1 ⟨[.holdingSem, .waitingSem], 0⟩ ∧
      holdingCount ⟨[.holdingSem, .waitingSem], 0⟩ ≤ 1 := by
  have h1 : SemStep (initSemState 2 1) ⟨[.waitingSem, .notStarted], 1⟩ :=
    SemStep.start (initSemState 2 1) 0 rfl
  have h2 : SemStep ⟨[.waitingSem, .notStarted], 1⟩ ⟨[.waitingSem, .waitingSem], 1⟩ :=
    SemStep.start ⟨[.waitingSem, .notStarted], 1⟩ 1 rfl
  have h3 : SemStep ⟨[.waitingSem, .waitingSem], 1⟩ ⟨[.holdingSem, .waitingSem], 0⟩ :=
    SemStep.acquire ⟨[.waitingSem, .waitingSem], 1⟩ 0 rfl (by decide)
  have hreach : SemReachable 2 1 ⟨[.holdingSem, .waitingSem], 0⟩ :=
    Relation.ReflTransGen.tail
      (Relation.ReflTransGen.tail (Relation.ReflTransGen.single h1) h2) h3
  exact ⟨hreach, semaphore_bounds_holding 2 1 _ hreach⟩

/-! ## C4: the per-intent base score formula -/

theorem alookup_scores_eq_none (user_input : String) (table : List (String × IntentEntry))
    (name : String) (h : name ∉ table.map Prod.fst) :
    alookup name (table.filterMap (fun p =>
      let score := intentEntryScore user_input p.2
      if score > 0 then some (p.1, score) else none)) = none := by
  induction table with
  | nil => rfl
  | cons p rest ih =>
    obtain ⟨n', e'⟩ := p
    simp only [List.map_cons, List.mem_cons, not_or] at h
    simp only [List.filterMap_cons]
    by_cases hpos : intentEntryScore user_input e' > 0
    · simp only [if_pos hpos, alookup, if_neg h.1]
      exact ih h.2
    · simp only [if_neg hpos]
      exact ih h.2

theorem alookup_scores_of_mem (user_input : String) (table : List (String × IntentEntry))
    (hnd : (table.map Prod.fst).Nodup) (name : String) (e : IntentEntry)
    (hmem : (name, e) ∈ table) :
    alookup name (table.filterMap (fun p =>
      let score := intentEntryScore user_input p.2
      if score > 0 then some (p.1, score) else none)) =
      (if intentEntryScore user_input e > 0 then some (intentEntryScore user_input e)
       else none) := by
  induction table with
  | nil => simp at hmem
  | cons p rest ih =>
    obtain ⟨n', e'⟩ := p
    simp only [List.map_cons, List.nodup_cons] at hnd
    rcases List.mem_cons.mp hmem with hhead | htail
    · injection hhead with h1 h2
      subst h1
      subst h2
      simp only [List.filterMap_cons]
      by_cases hpos : intentEntryScore user_input e > 0
      · simp [if_pos hpos, alookup]
      · simp only [if_neg hpos]
        exact alookup_scores_eq_none user_input rest name hnd.1
    · have hne : ¬ name = n' := by
        intro heq
        subst heq
        exact hnd.1 (List.mem_map.mpr ⟨(name, e), htail, rfl⟩)
      simp only [List.filterMap_cons]
      by_cases hpos : intentEntryScore user_input e' > 0
      · simp only [if_pos hpos, alookup, if_neg hne]
        exact ih hnd.2 htail
      · simp only [if_neg hpos]
        exact ih hnd.2 htail

theorem intentEntryScore_eq_formula (user_input : String) (e : IntentEntry) :
    intentEntryScore user_input e =
      ((7/10) * (((e.keywords.filter (fun kw => pyContains user_input kw)).length : ℚ) /
          (e.keywords.length : ℚ)) +
       (3/10) * (((e.patterns.filter (fun p => matchesPattern p user_input)).length : ℚ) /
          (e.patterns.length : ℚ))) * e.weight := by
  simp only [intentEntryScore]
  by_cases hk : (e.keywords.filter (fun kw => pyContains user_input kw)).length > 0
  · by_cases hp : (e.patterns.filter (fun p => matchesPattern p user_input)).length > 0
    · rw [if_pos hk, if_pos hp]
      ring
    · rw [if_pos hk, if_neg hp]
      have h2 : (e.patterns.filter (fun p => matchesPattern p user_input)).length = 0 := by
        omega
      rw [h2]
      push_cast
      ring
  · by_cases hp : (e.patterns.filter (fun p => matchesPattern p user_input)).length > 0
    · rw [if_neg hk, if_pos hp]
      have h1 : (e.keywords.filter (fun kw => pyContains user_input kw)).length = 0 := by
        omega
      rw [h1]
      push_cast
      ring
    · rw [if_neg hk, if_neg hp]
      have h1 : (e.keywords.filter (fun kw => pyContains user_input kw)).length = 0 := by
        omega
      have h2 : (e.patterns.filter (fun p => matchesPattern p user_input)).length = 0 := by
        omega
      rw [h1, h2]
      push_cast
      ring

/-- C4: for every user input, the classifier's per-intent score equals
`0.7·(matchedKeywords/totalKeywords) + 0.3·(matchedPatterns/totalPatterns)`
multiplied by the intent's base weight, and every intent whose score is 0 is
absent from the score table passed to context adjustment. -/
theorem intent_base_score_formula (user_input : String) (name : String) (e : IntentEntry)
    (hmem : (name, e) ∈ intent_patterns) :
    alookup name (calculate_intent_scores user_input) =
      (let score :=
        ((7/10) * (((e.keywords.filter (fun kw => pyContains user_input kw)).length : ℚ) /
            (e.keywords.length : ℚ)) +
         (3/10) * (((e.patterns.filter (fun p => matchesPattern p user_input)).length : ℚ) /
            (e.patterns.length : ℚ))) * e.weight
       if score > 0 then some score else none) := by
  have hnd : (intent_patterns.map Prod.fst).Nodup := by decide
  have h := alookup_scores_of_mem user_input intent_patterns hnd name e hmem
  unfold calculate_intent_scores
  rw [h, intentEntryScore_eq_formula]

theorem intent_base_score_formula_witness :
    (("humor", (⟨["笑话", "有趣", "幽默", "好玩", "搞笑", "开心"],
        [["笑话"], ["有趣"], ["幽默"]], "conversation", 4/5⟩ : IntentEntry)) ∈
      intent_patterns) ∧
    alookup "humor" (calculate_intent_scores "讲个笑话") = some (13/75) := by
  constructor
  · simp [intent_patterns]
  · have h := intent_base_score_formula "讲个笑话" "humor"
      ⟨["笑话", "有趣", "幽默", "好玩", "搞笑", "开心"],
        [["笑话"], ["有趣"], ["幽默"]], "conversation", 4/5⟩
      (by simp [intent_patterns])
    rw [h]
    have e1 : (["笑话", "有趣", "幽默", "好玩", "搞笑", "开心"].filter
        (fun kw => pyContains "讲个笑话" kw)).length = 1 := rfl
    have e2 : ([["笑话"], ["有趣"], ["幽默"]].filter
        (fun p => matchesPattern p "讲个笑话")).length = 1 := rfl
    dsimp only
    rw [e1, e2]
    norm_num

/-! ## C6: fallback behaviour of the intent-based skill filter -/

theorem foldl_append_nil {α β : Type} (f : β → List α) (alts : List β)
    (h : ∀ alt ∈ alts, f alt = []) (acc : List α) :
    alts.foldl (fun acc alt => acc ++ f alt) acc = acc := by
  induction alts generalizing acc with
  | nil => rfl
  | cons a rest ih =>
    have ha : f a = [] := h a (List.mem_cons_self a rest)
    simp only [List.foldl_cons, ha, List.append_nil]
    exact ih (fun alt halt => h alt (List.mem_cons_of_mem a halt)) acc

/-- C6, counterexample: a conversation-category skill with detected intent
`analysis` (mapped to the knowledge category) and no alternative intents
satisfies the claim's premise — no available skill's category matches — yet
`_filter_skills_by_intent` returns the empty candidate set, not the full
available set: the fallback only fires when the intent has no category
mapping at all. -/
theorem intent_filter_no_fallback_example :
    convSkill.metadata.category ∉
      (alookup clsAnalysis.detected_intent intent_to_category_mapping).getD [] ∧
    clsAnalysis.alternative_intents = [] ∧
    filter_skills_by_intent [convSkill] clsAnalysis = [] ∧
    ¬ filter_skills_by_intent [convSkill] clsAnalysis = [convSkill] := by
  refine ⟨by decide, rfl, ?_, ?_⟩
  · with_unfolding_all decide
  · with_unfolding_all decide

/-- C6 (amended): the Matcher falls back to the full available set only when
the detected intent has no entry in the intent→category table; when the
intent is mapped but no available skill's category matches it or the
categories of any alternative intent, the candidate set is empty, and
`match_skills` then returns the empty shortlist. -/
theorem intent_filter_fallback_amended (available : List MatcherSkill)
    (cls : IntentClassification) :
    (alookup cls.detected_intent intent_to_category_mapping = none →
      filter_skills_by_intent available cls = available) ∧
    (∀ cats, alookup cls.detected_intent intent_to_category_mapping = some cats →
      (∀ sk ∈ available, sk.metadata.category ∉ cats) →
      (∀ alt ∈ cls.alternative_intents, ∀ sk ∈ available,
        sk.metadata.category ∉ (alookup alt.1 intent_to_category_mapping).getD []) →
      filter_skills_by_intent available cls = []) ∧
    (∀ ctx skill_configs elapsed_lt_cooldown max_skills,
      filter_skills_by_intent available cls = [] →
      match_skills cls ctx available skill_configs elapsed_lt_cooldown max_skills = []) := by
  refine ⟨?_, ?_, ?_⟩
  · intro h
    simp [filter_skills_by_intent, h]
  · intro cats hcats hnone halt
    simp only [filter_skills_by_intent, hcats]
    have hfilter : available.filter (fun sk => sk.metadata.category ∈ cats) = [] := by
      rw [List.filter_eq_nil_iff]
      intro sk hsk
      simpa using hnone sk hsk
    rw [hfilter]
    by_cases halts : cls.alternative_intents.isEmpty
    · simp only [halts]
      rfl
    · simp only [List.isEmpty_nil, halts, not_false_iff, and_true, if_pos trivial]
      have hfold : cls.alternative_intents.foldl (fun acc alt =>
          acc ++ available.filter (fun sk =>
            sk.metadata.category ∈ (alookup alt.1 intent_to_category_mapping).getD []))
          [] = [] := by
        apply foldl_append_nil
        intro alt halt2
        rw [List.filter_eq_nil_iff]
        intro sk hsk
        simpa using halt alt halt2 sk hsk
      simp only [hfold]
      rfl
  · intro ctx skill_configs elapsed_lt_cooldown max_skills h
    simp [match_skills, h]

theorem intent_filter_fallback_amended_witness :
    filter_skills_by_intent [convSkill] clsUnmapped = [convSkill] ∧
    filter_skills_by_intent [convSkill] clsAnalysis = [] :=
  ⟨(intent_filter_fallback_amended [convSkill] clsUnmapped).1 rfl,
   (intent_filter_fallback_amended [convSkill] clsAnalysis).2.1 [.knowledge]
     rfl (by decide) (by decide)⟩

/-! ## C3: the trigger threshold excludes low-scoring skills -/

theorem mem_insertDescBy {α : Type} (key : α → ℚ) (a b : α) (l : List α) :
    a ∈ insertDescBy key b l ↔ a = b ∨ a ∈ l := by
  induction l with
  | nil => simp [insertDescBy]
  | cons c rest ih =>
    simp only [insertDescBy]
    by_cases h : key b > key c
    · simp only [if_pos h, List.mem_cons]
    · simp only [if_neg h, List.mem_cons, ih]
      tauto

theorem mem_sortDescBy {α : Type} (key : α → ℚ) (a : α) (l : List α) :
    a ∈ sortDescBy key l ↔ a ∈ l := by
  induction l with
  | nil => simp [sortDescBy]
  | cons c rest ih => simp [sortDescBy, mem_insertDescBy, ih]

/-- C3: a skill whose configured threshold exceeds its combined weighted
score — `weight` times the 0.4-confidence / 0.3-intent-match /
0.2-character-preference / 0.1-context-relevance blend — never appears in
the shortlist returned by `match_skills`. -/
theorem matcher_threshold_excludes
    (cls : IntentClassification) (ctx : SkillContext)
    (available_skills : List MatcherSkill) (skill_configs : List (String × SkillConfig))
    (elapsed_lt_cooldown : String → Bool) (max_skills : Nat) (sk : MatcherSkill)
    (hthr :
      ((alookup sk.metadata.name skill_configs).getD
        (defaultSkillConfig sk.metadata.name none)).threshold >
      ((alookup sk.metadata.name skill_configs).getD
        (defaultSkillConfig sk.metadata.name none)).weight *
        ((4/10) * sk.confidence +
         (3/10) * calculate_intent_match_score sk cls +
         (2/10) * calculate_character_preference_score sk
           { ctx with
             detected_intent := some cls.detected_intent,
             intent_confidence := cls.confidence } +
         (1/10) * calculate_context_relevance_score sk
           { ctx with
             detected_intent := some cls.detected_intent,
             intent_confidence := cls.confidence })) :
    sk ∉ (match_skills cls ctx available_skills skill_configs elapsed_lt_cooldown
        max_skills).map (fun t => t.1) := by
  intro hmem
  have hscore : calculate_skill_score sk
      ((alookup sk.metadata.name skill_configs).getD
        (defaultSkillConfig sk.metadata.name none))
      { ctx with
        detected_intent := some cls.detected_intent,
        intent_confidence := cls.confidence } cls = 0 := by
    dsimp only [calculate_skill_score]
    rw [if_pos]
    nlinarith [hthr]
  rw [List.mem_map] at hmem
  obtain ⟨t, ht, hteq⟩ := hmem
  dsimp only [match_skills] at ht
  by_cases hrel : (filter_skills_by_intent available_skills cls).isEmpty
  · rw [if_pos hrel] at ht
    simp at ht
  · rw [if_neg hrel] at ht
    have ht' := List.take_subset _ _ ht
    rw [mem_sortDescBy, List.mem_filterMap] at ht'
    obtain ⟨sk', hsk', hproduce⟩ := ht'
    split_ifs at hproduce with h1 h2 h3
    injection hproduce with hprod
    subst hprod
    dsimp at hteq
    subst hteq
    rw [hscore] at h3
    exact absurd h3 (by norm_num)

theorem matcher_threshold_excludes_witness :
    (((alookup convSkill.metadata.name [("storytelling", cfgFullThreshold)]).getD
        (defaultSkillConfig convSkill.metadata.name none)).threshold >
      ((alookup convSkill.metadata.name [("storytelling", cfgFullThreshold)]).getD
        (defaultSkillConfig convSkill.metadata.name none)).weight *
        ((4/10) * convSkill.confidence +
         (3/10) * calculate_intent_match_score convSkill clsStory +
         (2/10) * calculate_character_preference_score convSkill
           { mkSimpleContext "讲个故事" with
             detected_intent := some clsStory.detected_intent,
             intent_confidence := clsStory.confidence } +
         (1/10) * calculate_context_relevance_score convSkill
           { mkSimpleContext "讲个故事" with
             detected_intent := some clsStory.detected_intent,
             intent_confidence := clsStory.confidence })) ∧
    convSkill ∉ (match_skills clsStory (mkSimpleContext "讲个故事") [convSkill]
        [("storytelling", cfgFullThreshold)] (fun _ => false) 3).map (fun t => t.1) :=
  ⟨by with_unfolding_all decide,
   matcher_threshold_excludes clsStory (mkSimpleContext "讲个故事") [convSkill]
     [("storytelling", cfgFullThreshold)] (fun _ => false) 3 convSkill
     (by with_unfolding_all decide)⟩

/-! ## C9: SkillResults are mutated by post-processing -/

/-- C9, counterexample: the manager's post-processing pass changes a field
of an already-produced `SkillResult`: a result whose content lexically
overlaps the user input gets its `relevance_score` raised from 0 to 0.1 by
`_assess_result_quality`, so results are not immutable once returned. -/
theorem post_process_mutates_result :
    (assess_result_quality (mkSimpleContext "hello")
      ⟨"s", 0, .completed, some "hello", 2, none, none, 0, 0, 0⟩).relevance_score = 1/10 ∧
    ¬ (assess_result_quality (mkSimpleContext "hello")
      ⟨"s", 0, .completed, some "hello", 2, none, none, 0, 0, 0⟩).relevance_score =
      (⟨"s", 0, .completed, some "hello", 2, none, none, 0, 0, 0⟩ :
        SkillResult).relevance_score := by
  constructor
  · with_unfolding_all decide
  · with_unfolding_all decide

theorem assess_result_quality_frame (ctx : SkillContext) (r : SkillResult) :
    (assess_result_quality ctx r).skill_name = r.skill_name ∧
    (assess_result_quality ctx r).execution_id = r.execution_id ∧
    (assess_result_quality ctx r).status = r.status ∧
    (assess_result_quality ctx r).execution_time = r.execution_time ∧
    (assess_result_quality ctx r).error_message = r.error_message ∧
    (assess_result_quality ctx r).error_code = r.error_code ∧
    (assess_result_quality ctx r).confidence_score = r.confidence_score ∧
    (assess_result_quality ctx r).generated_content = r.generated_content := by
  unfold assess_result_quality
  split
  · exact ⟨rfl, rfl, rfl, rfl, rfl, rfl, rfl, rfl⟩
  · dsimp only
    split_ifs <;> exact ⟨rfl, rfl, rfl, rfl, rfl, rfl, rfl, rfl⟩

theorem optimize_result_content_frame (r : SkillResult) :
    (optimize_result_content r).skill_name = r.skill_name ∧
    (optimize_result_content r).execution_id = r.execution_id ∧
    (optimize_result_content r).status = r.status ∧
    (optimize_result_content r).execution_time = r.execution_time ∧
    (optimize_result_content r).error_message = r.error_message ∧
    (optimize_result_content r).error_code = r.error_code ∧
    (optimize_result_content r).confidence_score = r.confidence_score := by
  unfold optimize_result_content
  split
  · exact ⟨rfl, rfl, rfl, rfl, rfl, rfl, rfl⟩
  · dsimp only
    split_ifs <;> exact ⟨rfl, rfl, rfl, rfl, rfl, rfl, rfl⟩

/-- C9 (amended): post-processing is not the identity — it may rewrite
`quality_score`, `relevance_score` and `generated_content` of a result that
was already returned by the executor — but it preserves every other field
(name, id, status, execution time, error info, confidence). -/
theorem post_process_frame_preservation (ctx : SkillContext) (r : SkillResult) :
    (optimize_result_content (assess_result_quality ctx r)).skill_name = r.skill_name ∧
    (optimize_result_content (assess_result_quality ctx r)).execution_id =
      r.execution_id ∧
    (optimize_result_content (assess_result_quality ctx r)).status = r.status ∧
    (optimize_result_content (assess_result_quality ctx r)).execution_time =
      r.execution_time ∧
    (optimize_result_content (assess_result_quality ctx r)).error_message =
      r.error_message ∧
    (optimize_result_content (assess_result_quality ctx r)).error_code = r.error_code ∧
    (optimize_result_content (assess_result_quality ctx r)).confidence_score =
      r.confidence_score := by
  have ha := assess_result_quality_frame ctx r
  have ho := optimize_result_content_frame (assess_result_quality ctx r)
  obtain ⟨a1, a2, a3, a4, a5, a6, a7, a8⟩ := ha
  obtain ⟨o1, o2, o3, o4, o5, o6, o7⟩ := ho
  exact ⟨o1.trans a1, o2.trans a2, o3.trans a3, o4.trans a4, o5.trans a5,
    o6.trans a6, o7.trans a7⟩

/-! ## C8: the classifier can raise -/

/-- C8: the classifier is not exception-free.  On the concrete input
`为什么如何怎么原理深入详细解释分析` with character `苏格拉底`, every
`deep_conversation` keyword and pattern matches (base score 1.0) and the
Socrates context boost multiplies the score by 1.5, so `classify_intent`
hands `confidence = 1.5` to the `IntentClassification` constructor, whose
declared `le=1.0` bound makes pydantic raise a `ValidationError` — the code
contradicts both the spec's never-raises rule and its own model bounds. -/
theorem classify_intent_raises_on_overboost :
    classify_intent ctxSocrates =
      Except.error "ValidationError: confidence not in range 0..1" := by
  with_unfolding_all rfl

/-! ## C7: cache semantics of repeated executions -/

/-- C7, counterexample: a cacheable skill whose execution raises is not
cached (only successful results are), so the second identical `executeOne`
call re-executes and reports its own nonzero execution time instead of the
claimed `executionTime = 0`. -/
theorem cached_skill_counterexample :
    storytellingMetadata.cache_results = true ∧
    ((execute_skill storytellingMetadata (raisingBehavior "boom" 1)
        (mkSimpleContext "讲个故事") (defaultSkillConfig "storytelling" none)
        (execute_skill storytellingMetadata (raisingBehavior "boom" 1)
          (mkSimpleContext "讲个故事") (defaultSkillConfig "storytelling" none)
          freshExecutorState freshSkillState).2.1
        (execute_skill storytellingMetadata (raisingBehavior "boom" 1)
          (mkSimpleContext "讲个故事") (defaultSkillConfig "storytelling" none)
          freshExecutorState freshSkillState).2.2).1.execution_time = 1) ∧
    ¬ ((execute_skill storytellingMetadata (raisingBehavior "boom" 1)
        (mkSimpleContext "讲个故事") (defaultSkillConfig "storytelling" none)
        (execute_skill storytellingMetadata (raisingBehavior "boom" 1)
          (mkSimpleContext "讲个故事") (defaultSkillConfig "storytelling" none)
          freshExecutorState freshSkillState).2.1
        (execute_skill storytellingMetadata (raisingBehavior "boom" 1)
          (mkSimpleContext "讲个故事") (defaultSkillConfig "storytelling" none)
          freshExecutorState freshSkillState).2.2).1.execution_time = 0) := by
  refine ⟨rfl, ?_, ?_⟩
  · with_unfolding_all decide
  · with_unfolding_all decide

/-- C7 (amended): for a skill with `cacheResults = true` whose first call
completes successfully (only completed results are cached), a second
`executeOne` call with identical skill name, user input, character id and
config parameters is served from the cache: its `executionTime` is 0 and
its `generatedContent` is identical to the first call's. -/
theorem cached_skill_second_call_zero_time (md : SkillMetadata) (beh : SkillBehavior)
    (ctx : SkillContext) (config : SkillConfig) (es : ExecutorState) (s : SkillState)
    (r : SkillResult) (dur : ℚ)
    (hcache : md.cache_results = true)
    (hch : beh.can_handle = .ok true)
    (hbh : beh.before_hook = .ok ())
    (hah : beh.after_hook = .ok ())
    (hout : beh.exec_outcome = .ok r dur)
    (hmiss : alookup (generate_cache_key md ctx config) s.execution_cache = none) :
    ((execute_skill md beh ctx config
        (execute_skill md beh ctx config es s).2.1
        (execute_skill md beh ctx config es s).2.2).1.execution_time = 0) ∧
    ((execute_skill md beh ctx config
        (execute_skill md beh ctx config es s).2.1
        (execute_skill md beh ctx config es s).2.2).1.generated_content =
      (execute_skill md beh ctx config es s).1.generated_content) := by
  simp only [execute_skill, execute_with_monitoring, hch, hbh, hah, hcache, hmiss,
    hout, if_true, alookup_dictInsert, if_pos]
  exact ⟨trivial, trivial⟩

theorem cached_skill_second_call_zero_time_witness :
    ((execute_skill storytellingMetadata (okBehavior storyResult 2)
        (mkSimpleContext "讲个故事") (defaultSkillConfig "storytelling" none)
        (execute_skill storytellingMetadata (okBehavior storyResult 2)
          (mkSimpleContext "讲个故事") (defaultSkillConfig "storytelling" none)
          freshExecutorState freshSkillState).2.1
        (execute_skill storytellingMetadata (okBehavior storyResult 2)
          (mkSimpleContext "讲个故事") (defaultSkillConfig "storytelling" none)
          freshExecutorState freshSkillState).2.2).1.execution_time = 0) ∧
    ((execute_skill storytellingMetadata (okBehavior storyResult 2)
        (mkSimpleContext "讲个故事") (defaultSkillConfig "storytelling" none)
        (execute_skill storytellingMetadata (okBehavior storyResult 2)
          (mkSimpleContext "讲个故事") (defaultSkillConfig "storytelling" none)
          freshExecutorState freshSkillState).2.1
        (execute_skill storytellingMetadata (okBehavior storyResult 2)
          (mkSimpleContext "讲个故事") (defaultSkillConfig "storytelling" none)
          freshExecutorState freshSkillState).2.2).1.generated_content =
      (execute_skill storytellingMetadata (okBehavior storyResult 2)
        (mkSimpleContext "讲个故事") (defaultSkillConfig "storytelling" none)
        freshExecutorState freshSkillState).1.generated_content) :=
  cached_skill_second_call_zero_time storytellingMetadata (okBehavior storyResult 2)
    (mkSimpleContext "讲个故事") (defaultSkillConfig "storytelling" none)
    freshExecutorState freshSkillState storyResult 2 rfl rfl rfl rfl rfl rfl

/-! ## C1: failures are converted, one result per attempted skill -/

theorem execute_with_monitoring_converted (md : SkillMetadata) (beh : SkillBehavior)
    (ctx : SkillContext) (config : SkillConfig) (eid : Nat) (s : SkillState)
    (hwf : CacheWF s) :
    resultConverted (execute_with_monitoring md beh ctx config eid s).1 := by
  unfold execute_with_monitoring
  by_cases hc : md.cache_results
  · rw [if_pos hc]
    cases hlk : alookup (generate_cache_key md ctx config) s.execution_cache with
    | some cached =>
      have hcomp : cached.status = .completed :=
        hwf _ _ (mem_of_alookup_eq_some hlk)
      exact ⟨Or.inl hcomp, fun hne => absurd hcomp hne⟩
    | none =>
      cases hout : beh.exec_outcome with
      | ok r dur => exact ⟨Or.inl rfl, fun hne => absurd rfl hne⟩
      | timesOut dur =>
        exact ⟨Or.inr (Or.inr rfl), fun _ hcode => Option.noConfusion hcode⟩
      | raises e dur =>
        exact ⟨Or.inr (Or.inl rfl), fun _ hcode => Option.noConfusion hcode⟩
  · rw [if_neg hc]
    cases hout : beh.exec_outcome with
    | ok r dur => exact ⟨Or.inl rfl, fun hne => absurd rfl hne⟩
    | timesOut dur =>
      exact ⟨Or.inr (Or.inr rfl), fun _ hcode => Option.noConfusion hcode⟩
    | raises e dur =>
      exact ⟨Or.inr (Or.inl rfl), fun _ hcode => Option.noConfusion hcode⟩

theorem executorErrorResult_converted (md : SkillMetadata) (eid : Nat) (e : PyExc) :
    resultConverted (executorErrorResult md eid e) := by
  cases e with
  | timeoutError =>
    exact ⟨Or.inr (Or.inr rfl), fun _ hcode => Option.noConfusion hcode⟩
  | valueError msg =>
    exact ⟨Or.inr (Or.inl rfl), fun _ hcode => Option.noConfusion hcode⟩
  | other msg =>
    exact ⟨Or.inr (Or.inl rfl), fun _ hcode => Option.noConfusion hcode⟩

theorem execute_skill_converted (md : SkillMetadata) (beh : SkillBehavior)
    (ctx : SkillContext) (config : SkillConfig) (es : ExecutorState) (s : SkillState)
    (hwf : CacheWF s) :
    resultConverted (execute_skill md beh ctx config es s).1 := by
  unfold execute_skill
  dsimp only
  rcases hch : beh.can_handle with e | b
  · exact executorErrorResult_converted _ _ _
  · cases b
    · exact executorErrorResult_converted _ _ _
    · rcases hbh : beh.before_hook with e | u
      · exact executorErrorResult_converted _ _ _
      · rcases hah : beh.after_hook with e | u
        · exact executorErrorResult_converted _ _ _
        · exact execute_with_monitoring_converted md beh ctx config
            es.next_execution_id s hwf

theorem execute_skills_parallel_spec (tasks : List SkillTask) (es : ExecutorState)
    (hwf : ∀ t ∈ tasks, CacheWF t.state) :
    (execute_skills_parallel tasks es).1.length = tasks.length ∧
    ∀ r ∈ (execute_skills_parallel tasks es).1, resultConverted r := by
  induction tasks generalizing es with
  | nil => exact ⟨rfl, fun r hr => absurd hr (List.not_mem_nil r)⟩
  | cons t rest ih =>
    have hhead : CacheWF t.state := hwf t (List.mem_cons_self t rest)
    have htail : ∀ t2 ∈ rest, CacheWF t2.state :=
      fun t2 h2 => hwf t2 (List.mem_cons_of_mem t h2)
    simp only [execute_skills_parallel]
    obtain ⟨ihlen, ihconv⟩ := ih
      (execute_skill t.metadata t.behavior t.context t.config es t.state).2.1 htail
    constructor
    · simp [ihlen]
    · intro r hr
      rcases List.mem_cons.mp hr with hr1 | hr2
      · subst hr1
        exact execute_skill_converted _ _ _ _ _ _ hhead
      · exact ihconv r hr2

theorem execute_skills_sequential_spec (tasks : List SkillTask) (es : ExecutorState)
    (hwf : ∀ t ∈ tasks, CacheWF t.state) :
    (execute_skills_sequential tasks false es).1.length = tasks.length ∧
    ∀ r ∈ (execute_skills_sequential tasks false es).1, resultConverted r := by
  induction tasks generalizing es with
  | nil => exact ⟨rfl, fun r hr => absurd hr (List.not_mem_nil r)⟩
  | cons t rest ih =>
    have hhead : CacheWF t.state := hwf t (List.mem_cons_self t rest)
    have htail : ∀ t2 ∈ rest, CacheWF t2.state :=
      fun t2 h2 => hwf t2 (List.mem_cons_of_mem t h2)
    simp only [execute_skills_sequential, Bool.false_eq_true, false_and, if_false]
    obtain ⟨ihlen, ihconv⟩ := ih
      (execute_skill t.metadata t.behavior t.context t.config es t.state).2.1 htail
    constructor
    · simp [ihlen]
    · intro r hr
      rcases List.mem_cons.mp hr with hr1 | hr2
      · subst hr1
        exact execute_skill_converted _ _ _ _ _ _ hhead
      · exact ihconv r hr2

theorem length_filter_bool_split {α : Type} (p : α → Bool) (l : List α) :
    (l.filter p).length + (l.filter (fun a => ! p a)).length = l.length := by
  induction l with
  | nil => rfl
  | cons a rest ih =>
    cases hpa : p a <;> simp [List.filter_cons, hpa] <;> omega

theorem execute_skills_adaptive_spec (tasks : List SkillTask) (es : ExecutorState)
    (hwf : ∀ t ∈ tasks, CacheWF t.state) :
    (execute_skills_adaptive tasks es).1.length = tasks.length ∧
    ∀ r ∈ (execute_skills_adaptive tasks es).1, resultConverted r := by
  simp only [execute_skills_adaptive]
  have hwfp : ∀ t ∈ tasks.filter (fun t =>
      t.metadata.concurrent_limit > 1 ∧ t.metadata.max_execution_time ≤ 10),
      CacheWF t.state :=
    fun t ht => hwf t (List.mem_of_mem_filter ht)
  have hwfs : ∀ t ∈ tasks.filter (fun t =>
      ! (decide (t.metadata.concurrent_limit > 1 ∧ t.metadata.max_execution_time ≤ 10))),
      CacheWF t.state :=
    fun t ht => hwf t (List.mem_of_mem_filter ht)
  obtain ⟨hplen, hpconv⟩ := execute_skills_parallel_spec _ es hwfp
  obtain ⟨hslen, hsconv⟩ := execute_skills_sequential_spec _
    (execute_skills_parallel (tasks.filter (fun t =>
      t.metadata.concurrent_limit > 1 ∧ t.metadata.max_execution_time ≤ 10)) es).2 hwfs
  constructor
  · simp only [List.length_append, hplen, hslen]
    exact length_filter_bool_split _ tasks
  · intro r hr
    rcases List.mem_append.mp hr with hr1 | hr2
    · exact hpconv r hr1
    · exact hsconv r hr2

/-- C1: for every list of selected skills and each of the three execution
strategies, the executor converts every failure mode — `can_handle`
rejection or exception, hook exception, skill exception, timeout — into a
`failed`/`timeout` result carrying an error code, returns exactly one
result per attempted skill, and the manager facade returns one
post-processed result per selected skill (empty when none was selected)
without raising. -/
theorem executor_manager_convert_exceptions (tasks : List SkillTask)
    (ctx : SkillContext) (es : ExecutorState) (strategy : String)
    (hstrat : strategy = "parallel" ∨ strategy = "sequential" ∨ strategy = "adaptive")
    (hwf : ∀ t ∈ tasks, CacheWF t.state) :
    (∃ out, execute_skills_with_strategy tasks strategy es = .ok out ∧
      out.1.length = tasks.length ∧ ∀ r ∈ out.1, resultConverted r) ∧
    (process_user_input ctx tasks strategy es).1.length =
      (if tasks.isEmpty then 0 else tasks.length) ∧
    (tasks = [] → (process_user_input ctx tasks strategy es).1 = []) := by
  have hmain : ∃ out, execute_skills_with_strategy tasks strategy es = .ok out ∧
      out.1.length = tasks.length ∧ ∀ r ∈ out.1, resultConverted r := by
    rcases hstrat with h | h | h <;> subst h
    · obtain ⟨hlen, hconv⟩ := execute_skills_parallel_spec tasks es hwf
      exact ⟨_, rfl, hlen, hconv⟩
    · obtain ⟨hlen, hconv⟩ := execute_skills_sequential_spec tasks es hwf
      exact ⟨_, rfl, hlen, hconv⟩
    · obtain ⟨hlen, hconv⟩ := execute_skills_adaptive_spec tasks es hwf
      exact ⟨_, rfl, hlen, hconv⟩
  refine ⟨hmain, ?_, ?_⟩
  · obtain ⟨out, hout, hlen, _⟩ := hmain
    by_cases hemp : tasks.isEmpty
    · simp [process_user_input, hemp]
    · simp only [process_user_input, hemp, if_neg, Bool.false_eq_true, if_false, hout]
      simp [post_process_results, hlen, hemp]
  · intro hnil
    subst hnil
    simp [process_user_input]

theorem executor_manager_convert_exceptions_witness :
    ("parallel" = "parallel" ∨ "parallel" = "sequential" ∨ "parallel" = "adaptive") ∧
    (∀ t ∈ [taskOk, taskFail], CacheWF t.state) ∧
    ((∃ out, execute_skills_with_strategy [taskOk, taskFail] "parallel"
        freshExecutorState = .ok out ∧ out.1.length = [taskOk, taskFail].length ∧
        ∀ r ∈ out.1, resultConverted r) ∧
      (process_user_input (mkSimpleContext "讲个故事") [taskOk, taskFail] "parallel"
          freshExecutorState).1.length =
        (if [taskOk, taskFail].isEmpty then 0 else [taskOk, taskFail].length) ∧
      ([taskOk, taskFail] = [] →
        (process_user_input (mkSimpleContext "讲个故事") [taskOk, taskFail] "parallel"
          freshExecutorState).1 = [])) := by
  have hwf : ∀ t ∈ [taskOk, taskFail], CacheWF t.state := by
    intro t ht k r hr
    rcases List.mem_cons.mp ht with h | h
    · subst h
      exact absurd hr (List.not_mem_nil _)
    · rcases List.mem_cons.mp h with h2 | h2
      · subst h2
        exact absurd hr (List.not_mem_nil _)
      · exact absurd h2 (List.not_mem_nil _)
  exact ⟨Or.inl rfl, hwf,
    executor_manager_convert_exceptions [taskOk, taskFail] (mkSimpleContext "讲个故事")
      freshExecutorState "parallel" (Or.inl rfl) hwf⟩
